import Mathlib

/-!
Verification of the match-registry and relayed-match routing layer
(`server/match_registry.go`, `server/pipeline_match.go`).

The Go code is embedded shallowly: UUIDs are natural numbers together with a
parser/printer for the canonical textual form, the external `Tracker` and
`MessageRouter` collaborators are modelled from the spec's interface
description as operations on explicit state, and each pipeline handler is a
pure function from its inputs and the current server state to a reply and the
next state.  The actor mailbox (whose implementation lives outside the sources
studied here) is modelled from the spec as a bounded FIFO queue plus an oracle
for the outcome of the 10-second join race.
-/

/-! ## UUIDs and their textual form -/

/-- 128-bit identifiers (`uuid.UUID`) are modelled as natural numbers. -/
abbrev UUID := Nat

/-- Numeric value of a hexadecimal digit character, `none` for non-hex input. -/
def hexVal (c : Char) : Option Nat :=
  if '0' ≤ c ∧ c ≤ '9' then some (c.toNat - 48)
  else if 'a' ≤ c ∧ c ≤ 'f' then some (c.toNat - 87)
  else if 'A' ≤ c ∧ c ≤ 'F' then some (c.toNat - 55)
  else none

/-- Big-endian hexadecimal accumulator parse; fails on any non-hex character. -/
def parseHexChars : List Char → Nat → Option Nat
  | [], acc => some acc
  | c :: rest, acc =>
    match hexVal c with
    | none => none
    | some v => parseHexChars rest (acc * 16 + v)

/-- Split a character list into the groups separated by hyphens. -/
def splitDash : List Char → List (List Char)
  | [] => [[]]
  | c :: rest =>
    let r := splitDash rest
    if c = '-' then [] :: r
    else
      match r with
      | [] => [[c]]
      | g :: gs => (c :: g) :: gs

/-- Models `uuid.FromString` for the canonical `8-4-4-4-12` hexadecimal text
form (the library also tolerates a few alternative encodings such as braced or
URN forms; no behaviour studied here depends on those). -/
def uuidFromString (s : String) : Option UUID :=
  let groups := splitDash s.data
  if groups.map List.length = [8, 4, 4, 4, 12] then
    parseHexChars groups.flatten 0
  else none

/-- Hexadecimal digit character of a value below 16 (lower case, as produced
by `uuid.UUID.String()`). -/
def hexDigit (n : Nat) : Char :=
  if n < 10 then Char.ofNat (48 + n) else Char.ofNat (87 + n)

/-- The `k` low-order hex digits of `n`, most significant first. -/
def toHexChars : Nat → Nat → List Char
  | 0, _ => []
  | k + 1, n => toHexChars k (n / 16) ++ [hexDigit (n % 16)]

/-- Models `uuid.UUID.String()`: canonical `8-4-4-4-12` lower-case form. -/
def uuidToString (u : UUID) : String :=
  let h := toHexChars 32 u
  String.mk (h.take 8 ++ '-' :: ((h.drop 8).take 4) ++ '-' :: ((h.drop 12).take 4)
      ++ '-' :: ((h.drop 16).take 4) ++ '-' :: (h.drop 20))

/-- Models `strings.SplitN(s, ":", 2)` on a character list: `none` when the
separator is absent (the Go call then yields a single component and the
`len != 2` check fails), otherwise the parts before and after the first
colon. -/
def splitColon2 : List Char → Option (List Char × List Char)
  | [] => none
  | c :: rest =>
    if c = ':' then some ([], rest)
    else
      match splitColon2 rest with
      | none => none
      | some (a, b) => some (c :: a, b)

/-! ## Streams, presences and the Tracker collaborator -/

/-- Stream modes used by the match pipeline (`StreamModeMatchRelayed`,
`StreamModeMatchAuthoritative`). -/
inductive StreamMode
  | relayed
  | authoritative
deriving DecidableEq

/-- `PresenceStream`: (mode, subject, label). -/
structure PresenceStream where
  mode : StreamMode
  subject : UUID
  label : String
deriving DecidableEq

/-- `PresenceMeta`: the per-presence metadata recorded by the tracker. -/
structure PresenceMeta where
  username : String
  format : Nat
deriving DecidableEq

/-- A presence as listed by the tracker for one stream: the code reads
`p.ID.SessionID`, `p.UserID` and `p.Meta.Username` from it. -/
structure Presence where
  sessionID : UUID
  userID : UUID
  meta : PresenceMeta
deriving DecidableEq

/-- One membership record of the Tracker collaborator. -/
structure TrackerEntry where
  sessionID : UUID
  stream : PresenceStream
  userID : UUID
  meta : PresenceMeta
deriving DecidableEq

/-- Modelled from the spec: the Tracker collaborator's state is the collection
of tracked (session, stream, user, meta) membership records. -/
abbrev TrackerState := List TrackerEntry

/-- Modelled from the spec: `track(session, stream, user, meta)` records a
membership on a stream. -/
def track (tr : TrackerState) (sid : UUID) (s : PresenceStream) (uid : UUID)
    (m : PresenceMeta) : TrackerState :=
  tr ++ [⟨sid, s, uid, m⟩]

/-- Modelled from the spec: `untrack(session, stream, user)` removes that
membership. -/
def untrack (tr : TrackerState) (sid : UUID) (s : PresenceStream) (uid : UUID) :
    TrackerState :=
  tr.filter (fun e => decide (¬(e.sessionID = sid ∧ e.stream = s ∧ e.userID = uid)))

/-- Modelled from the spec: `untrackByStream(stream)` evicts every presence on
the stream, regardless of node. -/
def untrackByStream (tr : TrackerState) (s : PresenceStream) : TrackerState :=
  tr.filter (fun e => decide (¬ e.stream = s))

/-- Modelled from the spec: `listByStream(stream)` lists the presences tracked
on the stream. -/
def listByStream (tr : TrackerState) (s : PresenceStream) : List Presence :=
  (tr.filter (fun e => decide (e.stream = s))).map
    (fun e => ⟨e.sessionID, e.userID, e.meta⟩)

/-- Modelled from the spec: `streamExists(stream)` holds iff at least one
presence is tracked on the stream. -/
def streamExists (tr : TrackerState) (s : PresenceStream) : Bool :=
  tr.any (fun e => decide (e.stream = s))

/-- Modelled from the spec: `localLookup(session, stream, user)`
(`GetLocalBySessionIDStreamUserID`) returns the metadata under which the pair
is tracked on the stream, or `none`. -/
def getLocalBySessionIDStreamUserID (tr : TrackerState) (sid : UUID)
    (s : PresenceStream) (uid : UUID) : Option PresenceMeta :=
  (tr.find? (fun e => decide (e.sessionID = sid ∧ e.stream = s ∧ e.userID = uid))).map
    (fun e => e.meta)

/-! ## The match registry (`match_registry.go`) -/

/-- `MatchDataMessage` as queued by `SendData` (note the code stores the
target `node` argument in the `Node` field). -/
structure MatchDataMessage where
  userID : UUID
  sessionID : UUID
  username : String
  node : String
  opCode : Int
  payload : List Nat
deriving DecidableEq

/-- A match actor's mailbox message: the tagged union of join attempts, leave
notifications and data payloads. -/
inductive MailboxMsg
  | joinAttempt (userID sessionID : UUID) (username fromNode : String)
  | leave (presences : List Presence)
  | data (m : MatchDataMessage)
deriving DecidableEq

/-- Modelled from the spec: the observable state of one `MatchHandler`
(the implementation is outside the sources studied here).  `mailbox` is the
bounded FIFO call queue; `joinReply` is the oracle for the outcome of the
10-second race a queued join attempt runs against the actor: `some a` means
the actor answers `a` before the timeout fires, `none` means the timeout
fires first. -/
structure MatchHandlerState where
  mailbox : List MailboxMsg
  capacity : Nat
  joinReply : Option Bool
deriving DecidableEq

/-- Modelled from the spec: bounded non-blocking enqueue (`QueueCall`); when
the mailbox is full the message is refused and `false` returned. -/
def MatchHandlerState.queueCall (mh : MatchHandlerState) (msg : MailboxMsg) :
    MatchHandlerState × Bool :=
  if mh.mailbox.length ≥ mh.capacity then (mh, false)
  else ({ mh with mailbox := mh.mailbox ++ [msg] }, true)

/-- Modelled from the spec: bounded non-blocking data enqueue (`QueueData`);
a full mailbox silently drops the message. -/
def MatchHandlerState.queueData (mh : MatchHandlerState) (m : MatchDataMessage) :
    MatchHandlerState :=
  if mh.mailbox.length ≥ mh.capacity then mh
  else { mh with mailbox := mh.mailbox ++ [MailboxMsg.data m] }

/-- `LocalMatchRegistry`: the per-node directory of match actors.  The Go map
`matches` is modelled as an association list keyed by match identifier. -/
structure LocalMatchRegistry where
  node : String
  matchMap : List (UUID × MatchHandlerState)
deriving DecidableEq

/-- Lookup `r.matchMap[id]` in the directory. -/
def findMatch (ms : List (UUID × MatchHandlerState)) (id : UUID) :
    Option MatchHandlerState :=
  (ms.find? (fun p => decide (p.1 = id))).map (fun p => p.2)

/-- Store an updated handler state back under its identifier. -/
def updateMatch (ms : List (UUID × MatchHandlerState)) (id : UUID)
    (mh : MatchHandlerState) : List (UUID × MatchHandlerState) :=
  ms.map (fun p => if p.1 = id then (id, mh) else p)

/-- `LocalMatchRegistry.Join`.  Returns the `(found, allowed)` pair of the Go
method together with the registry state after the call (the state records the
mailbox effect of a successful enqueue). -/
def LocalMatchRegistry.Join (r : LocalMatchRegistry) (id : UUID) (node : String)
    (userID sessionID : UUID) (username fromNode : String) :
    (Bool × Bool) × LocalMatchRegistry :=
  if node ≠ r.node then ((false, false), r)
  else
    match findMatch r.matchMap id with
    | none => ((false, false), r)
    | some mh =>
      let q := mh.queueCall (MailboxMsg.joinAttempt userID sessionID username fromNode)
      if q.2 = false then
        -- The match call queue was full, so will be closed and therefore can't be joined.
        ((true, false), r)
      else
        let r2 := { r with matchMap := updateMatch r.matchMap id q.1 }
        match mh.joinReply with
        | none => ((true, false), r2)    -- the 10-second ticker fires first
        | some a => ((true, a), r2)      -- the actor's answer arrives first

/-- `LocalMatchRegistry.Leave`: best-effort enqueue of a leave notification. -/
def LocalMatchRegistry.Leave (r : LocalMatchRegistry) (id : UUID) (node : String)
    (presences : List Presence) : LocalMatchRegistry :=
  if node ≠ r.node then r
  else
    match findMatch r.matchMap id with
    | none => r
    | some mh =>
      { r with matchMap := updateMatch r.matchMap id (mh.queueCall (MailboxMsg.leave presences)).1 }

/-- `LocalMatchRegistry.SendData`: best-effort enqueue of a data payload. -/
def LocalMatchRegistry.SendData (r : LocalMatchRegistry) (id : UUID) (node : String)
    (userID sessionID : UUID) (username fromNode : String) (opCode : Int)
    (payload : List Nat) : LocalMatchRegistry :=
  if node ≠ r.node then r
  else
    match findMatch r.matchMap id with
    | none => r
    | some mh =>
      let m := mh.queueData ⟨userID, sessionID, username, node, opCode, payload⟩
      { r with matchMap := updateMatch r.matchMap id m }

/-- `LocalMatchRegistry.RemoveMatch`: delete the directory entry and force
eviction of every presence on the supplied stream.  The registry's tracker
reference is modelled by passing the tracker state explicitly. -/
def LocalMatchRegistry.RemoveMatch (r : LocalMatchRegistry) (tr : TrackerState)
    (id : UUID) (stream : PresenceStream) : LocalMatchRegistry × TrackerState :=
  ({ r with matchMap := r.matchMap.filter (fun p => decide (¬ p.1 = id)) },
    untrackByStream tr stream)

/-! ## The pipeline (`pipeline_match.go`) -/

/-- The session data the handlers read (`session.ID()`, `session.UserID()`,
`session.Username()`, `session.Format()`). -/
structure SessionInfo where
  id : UUID
  userId : UUID
  username : String
  format : Nat
deriving DecidableEq

/-- `rtapi.StreamPresence` as placed in replies (string-typed identifiers). -/
structure StreamPresence where
  userId : String
  sessionId : String
  username : String
deriving DecidableEq

/-- The error codes the match pipeline sends. -/
inductive ErrorCode
  | badInput
  | matchNotFound
  | matchJoinRejected
deriving DecidableEq

/-- A reply envelope sent back on the session: an error, a `Match` descriptor,
or the empty acknowledgement (`matchLeave`'s bare envelope). -/
inductive PipelineReply
  | err (code : ErrorCode)
  | matchInfo (matchId : String) (presences : List StreamPresence) (self : StreamPresence)
  | ack
deriving DecidableEq

/-- The pipeline's mutable surroundings: its node name and the states of the
Tracker collaborator and the local match registry it calls into. -/
structure PipelineState where
  node : String
  tracker : TrackerState
  registry : LocalMatchRegistry
deriving DecidableEq

/-- `matchDataFilter`: one parsed recipient filter entry. -/
structure matchDataFilter where
  userID : UUID
  sessionID : UUID
deriving DecidableEq

/-- Models the Go idiom `xs[i] = xs[len(xs)-1]; xs = xs[:len(xs)-1]`: the slot
at index `i` is overwritten with the last element and the last slot dropped. -/
def swapRemove {α : Type} (l : List α) (i : Nat) : List α :=
  match l.getLast? with
  | none => l
  | some a => (l.set i a).dropLast

/-- The inner filter scan of `matchDataSend`: index of the first filter entry
matching the presence, scanning upwards from index 0. -/
def findFilterIdx (p : Presence) : List matchDataFilter → Option Nat
  | [] => none
  | f :: rest =>
    if p.sessionID = f.sessionID ∧ p.userID = f.userID then some 0
    else (findFilterIdx p rest).map (fun j => j + 1)

/-- The recipient-selection loop of `matchDataSend` (lines 257-289).  The Go
loop iterates an index `i` over the shrinking slice `ps`; its iteration count
is bounded by `ps.length - i`, which strictly decreases each pass, so the
recursion is made structural on a fuel argument that the caller sets to at
least that bound.  Returns the surviving candidate slice and `senderFound`. -/
def routeLoopF (sid uid : UUID) :
    Nat → List Presence → Option (List matchDataFilter) → Nat → Bool →
    List Presence × Bool
  | 0, ps, _, _, sf => (ps, sf)
  | fuel + 1, ps, filters, i, sf =>
    if h : i < ps.length then
      let p := ps[i]
      if p.sessionID = sid ∧ p.userID = uid then
        -- Don't echo back to sender.
        match filters with
        | none => (swapRemove ps i, true)                                -- break
        | some fs => routeLoopF sid uid fuel (swapRemove ps i) (some fs) i true  -- i--
      else
        match filters with
        | none => routeLoopF sid uid fuel ps none (i + 1) sf
        | some fs =>
          match findFilterIdx p fs with
          | some j =>
            -- A filter matched: consume that filter entry, keep the presence.
            routeLoopF sid uid fuel ps (some (swapRemove fs j)) (i + 1) sf
          | none =>
            -- Not named in the filters: drop the presence.
            routeLoopF sid uid fuel (swapRemove ps i) (some fs) i sf
    else (ps, sf)

/-- The relayed data-routing of `matchDataSend` (lines 233-299) given the
already-parsed filter list `F` and the stream membership `ps`: `none` when the
message is dropped, otherwise the list of recipient presences.  `F = []`
corresponds to the Go `filters == nil` case (no `incoming.Presences`). -/
def relayedRoute (sid uid : UUID) (ps : List Presence) (F : List matchDataFilter) :
    Option (List Presence) :=
  let filters : Option (List matchDataFilter) := if F.isEmpty then none else some F
  if ps.length = 0 then none
  else
    let r := routeLoopF sid uid ps.length ps filters 0 false
    if r.2 = false then none          -- sender was not a member: drop
    else if r.1.length = 0 then none  -- no recipients left: drop
    else some r.1

/-- The recipient set in the words of the spec: the membership minus the
sender's own entry, restricted (when the filter list is non-empty) to the
candidates named by some filter entry.  Used as the specification side of the
refinement proof for the routing loop. -/
def specRecipients (sid uid : UUID) (ps : List Presence) (F : List matchDataFilter) :
    List Presence :=
  ps.filter (fun q =>
    decide (¬(q.sessionID = sid ∧ q.userID = uid) ∧
      (F ≠ [] → ∃ f ∈ F, q.sessionID = f.sessionID ∧ q.userID = f.userID)))

/-- `rtapi.StreamPresence` entries of an incoming `MatchDataSend` filter. -/
structure WirePresence where
  userId : String
  sessionId : String
  username : String
deriving DecidableEq

/-- The filter-parsing loop of `matchDataSend` (lines 233-248): parse the
userID then the sessionID of each entry, aborting the whole send on the first
failure.  `some []` for an empty input list (Go leaves `filters` nil). -/
def parseFilterEntries : List WirePresence → Option (List matchDataFilter)
  | [] => some []
  | w :: rest =>
    match uuidFromString w.userId with
    | none => none
    | some u =>
      match uuidFromString w.sessionId with
      | none => none
      | some s =>
        match parseFilterEntries rest with
        | none => none
        | some fs => some (⟨u, s⟩ :: fs)

/-- `rtapi.MatchDataSend` payload. -/
structure MatchDataSendMsg where
  matchId : String
  opCode : Int
  data : List Nat
  presences : List WirePresence
deriving DecidableEq

/-- What a relayed data-send hands to `router.SendToPresences`: the recipient
list and the outgoing `MatchData` envelope's fields. -/
structure MatchDataDelivery where
  recipients : List Presence
  matchId : String
  senderUserId : String
  senderSessionId : String
  senderUsername : String
  opCode : Int
  data : List Nat
deriving DecidableEq

/-- Build the `Match` success envelope shared by the join paths (lines
153-173): the current stream presences plus the caller as `self`, under the
match identifier string taken from the incoming message. -/
def matchInfoReply (mid : String) (ps : List Presence) (sess : SessionInfo)
    (meta : PresenceMeta) : PipelineReply :=
  PipelineReply.matchInfo mid
    (ps.map (fun p => ⟨uuidToString p.userID, uuidToString p.sessionID, p.meta.username⟩))
    ⟨uuidToString sess.userId, uuidToString sess.id, meta.username⟩

/-- `matchCreate` (lines 30-51).  `uuid.NewV4()` is random, so the generated
identifier is passed as an argument. -/
def matchCreate (matchID : UUID) (sess : SessionInfo) (st : PipelineState) :
    PipelineReply × PipelineState :=
  let username := sess.username
  let st2 := { st with
    tracker := track st.tracker sess.id ⟨StreamMode.relayed, matchID, ""⟩ sess.userId
      ⟨username, sess.format⟩ }
  let self : StreamPresence := ⟨uuidToString sess.userId, uuidToString sess.id, username⟩
  (PipelineReply.matchInfo (uuidToString matchID ++ ":") [self] self, st2)

/-- `matchJoin` after the identifier has been parsed into `(matchID, node)`
(lines 102-173).  `matchIDString` is the string echoed back in the reply. -/
def matchJoinAfterParse (matchID : UUID) (node : String) (matchIDString : String)
    (sess : SessionInfo) (st : PipelineState) : PipelineReply × PipelineState :=
  let mode := if node = "" then StreamMode.relayed else StreamMode.authoritative
  let stream : PresenceStream := ⟨mode, matchID, node⟩
  if mode = StreamMode.relayed ∧ streamExists st.tracker stream = false then
    -- Relayed matches must 'exist' by already having some members.
    (PipelineReply.err ErrorCode.matchNotFound, st)
  else
    match getLocalBySessionIDStreamUserID st.tracker sess.id stream sess.userId with
    | some meta =>
      -- Already a member: return the match info anyway.
      (matchInfoReply matchIDString (listByStream st.tracker stream) sess meta, st)
    | none =>
      -- found, allow := true, true; authoritative matches ask the handler.
      let res :=
        if mode = StreamMode.authoritative then
          LocalMatchRegistry.Join st.registry matchID node sess.userId sess.id
            sess.username st.node
        else ((true, true), st.registry)
      let st2 := { st with registry := res.2 }
      if res.1.1 = false then (PipelineReply.err ErrorCode.matchNotFound, st2)
      else if res.1.2 = false then (PipelineReply.err ErrorCode.matchJoinRejected, st2)
      else
        let m : PresenceMeta := ⟨sess.username, sess.format⟩
        let tr2 := track st2.tracker sess.id stream sess.userId m
        (matchInfoReply matchIDString (listByStream tr2 stream) sess m,
          { st2 with tracker := tr2 })

/-- `matchLeave` after the identifier has been parsed (lines 195-206). -/
def matchLeaveAfterParse (matchID : UUID) (node : String) (sess : SessionInfo)
    (st : PipelineState) : PipelineReply × PipelineState :=
  let mode := if node = "" then StreamMode.relayed else StreamMode.authoritative
  let stream : PresenceStream := ⟨mode, matchID, node⟩
  (PipelineReply.ack, { st with tracker := untrack st.tracker sess.id stream sess.userId })

/-- `matchDataSend` after the identifier has been parsed (lines 222-312):
either the authoritative forward or the relayed filter-and-route logic.
The first component is the delivery handed to the router, `none` when the
message is dropped (data-send never replies to the sender). -/
def matchDataSendAfterParse (matchID : UUID) (node : String)
    (incoming : MatchDataSendMsg) (sess : SessionInfo) (st : PipelineState) :
    Option MatchDataDelivery × PipelineState :=
  if node ≠ "" then
    match getLocalBySessionIDStreamUserID st.tracker sess.id
        ⟨StreamMode.authoritative, matchID, node⟩ sess.userId with
    | none => (none, st)  -- user is not part of the match
    | some _ =>
      let r2 := LocalMatchRegistry.SendData st.registry matchID node sess.userId sess.id
        sess.username st.node incoming.opCode incoming.data
      (none, { st with registry := r2 })
  else
    match parseFilterEntries incoming.presences with
    | none => (none, st)  -- a filter entry failed to parse
    | some F =>
      match relayedRoute sess.id sess.userId
          (listByStream st.tracker ⟨StreamMode.relayed, matchID, ""⟩) F with
      | none => (none, st)
      | some out =>
        (some ⟨out, incoming.matchId, uuidToString sess.userId, uuidToString sess.id,
            sess.username, incoming.opCode, incoming.data⟩, st)

/-! ## Envelopes and the full handlers (including identifier parsing) -/

/-- The `oneof Id` of `rtapi.MatchJoin`. -/
inductive MatchJoinId
  | midStr (s : String)
  | token (t : String)
  | noneId
deriving DecidableEq

/-- `rtapi.MatchJoin`. -/
structure MatchJoinMsg where
  id : MatchJoinId
deriving DecidableEq

/-- `rtapi.MatchLeave`. -/
structure MatchLeaveMsg where
  matchId : String
deriving DecidableEq

/-- The `oneof message` of an `rtapi.Envelope`, restricted to the match
operations studied here. -/
inductive EnvelopeMsg
  | matchCreateMsg
  | matchJoinE (m : MatchJoinMsg)
  | matchLeaveE (m : MatchLeaveMsg)
  | matchDataSendE (m : MatchDataSendMsg)
deriving DecidableEq

/-- An inbound envelope. -/
structure Envelope where
  cid : String
  message : EnvelopeMsg
deriving DecidableEq

/-- `envelope.GetMatchJoin()`: `none` models the nil pointer returned when the
envelope's oneof holds a different message. -/
def Envelope.getMatchJoin (e : Envelope) : Option MatchJoinMsg :=
  match e.message with
  | EnvelopeMsg.matchJoinE m => some m
  | _ => none

/-- `envelope.GetMatchLeave()`. -/
def Envelope.getMatchLeave (e : Envelope) : Option MatchLeaveMsg :=
  match e.message with
  | EnvelopeMsg.matchLeaveE m => some m
  | _ => none

/-- `envelope.GetMatchDataSend()`. -/
def Envelope.getMatchDataSend (e : Envelope) : Option MatchDataSendMsg :=
  match e.message with
  | EnvelopeMsg.matchDataSendE m => some m
  | _ => none

/-- The full `matchJoin` handler (lines 53-174).  The overall result is `none`
when the handler dereferences a nil message pointer: the source validates the
match identifier with `strings.SplitN(envelope.GetMatchLeave().MatchId, ":", 2)`,
and for a join envelope `GetMatchLeave()` is nil, so the `.MatchId` field
access faults. -/
def pipelineMatchJoin (env : Envelope) (sess : SessionInfo) (st : PipelineState) :
    Option (PipelineReply × PipelineState) :=
  match env.getMatchJoin with
  | none => none  -- m.Id on a nil m faults
  | some m =>
    match m.id with
    | MatchJoinId.midStr mid =>
      -- matchIDString = m.GetMatchId(), but the components below are taken
      -- from envelope.GetMatchLeave().MatchId, exactly as the source does.
      match env.getMatchLeave with
      | none => none  -- nil MatchLeave: the .MatchId access faults
      | some ml =>
        match splitColon2 ml.matchId.data with
        | none => some (PipelineReply.err ErrorCode.badInput, st)
        | some (a, b) =>
          match uuidFromString (String.mk a) with
          | none => some (PipelineReply.err ErrorCode.badInput, st)
          | some matchID => some (matchJoinAfterParse matchID (String.mk b) mid sess st)
    | MatchJoinId.token _ => some (PipelineReply.err ErrorCode.badInput, st)
    | MatchJoinId.noneId => some (PipelineReply.err ErrorCode.badInput, st)

/-- The full `matchLeave` handler (lines 176-207). -/
def pipelineMatchLeave (env : Envelope) (sess : SessionInfo) (st : PipelineState) :
    Option (PipelineReply × PipelineState) :=
  match env.getMatchLeave with
  | none => none  -- nil MatchLeave: the .MatchId access faults
  | some ml =>
    match splitColon2 ml.matchId.data with
    | none => some (PipelineReply.err ErrorCode.badInput, st)
    | some (a, b) =>
      match uuidFromString (String.mk a) with
      | none => some (PipelineReply.err ErrorCode.badInput, st)
      | some matchID => some (matchLeaveAfterParse matchID (String.mk b) sess st)

/-- The full `matchDataSend` handler (lines 209-313).  As in `matchJoin`, the
identifier is taken from `envelope.GetMatchLeave().MatchId`, which is a nil
dereference for a data-send envelope. -/
def pipelineMatchDataSend (env : Envelope) (sess : SessionInfo) (st : PipelineState) :
    Option (Option MatchDataDelivery × PipelineState) :=
  match env.getMatchLeave with
  | none => none  -- nil MatchLeave: the .MatchId access faults
  | some ml =>
    match splitColon2 ml.matchId.data with
    | none => some (none, st)  -- silent drop, no reply
    | some (a, b) =>
      match uuidFromString (String.mk a) with
      | none => some (none, st)  -- silent drop, no reply
      | some matchID =>
        match env.getMatchDataSend with
        | none => none  -- incoming is nil: the field accesses below fault
        | some incoming => some (matchDataSendAfterParse matchID (String.mk b) incoming sess st)

/-! ## Claim C2: registry Join outcomes -/

/-- C2: for every registry `Join(id, node, ...)`: a non-local node yields
`(false, false)`; an unknown identifier yields `(false, false)`; a full
mailbox yields `(true, false)`; otherwise the result is `(true, answer)` when
the actor's reply wins the race against the 10-second ceiling and
`(true, false)` when the timeout wins — a timed-out actor is reported as a
rejection, never as not-found. -/
theorem c2_registry_join (r : LocalMatchRegistry) (id : UUID) (node : String)
    (userID sessionID : UUID) (username fromNode : String) :
    (node ≠ r.node →
      (LocalMatchRegistry.Join r id node userID sessionID username fromNode).1 = (false, false))
  ∧ (node = r.node → findMatch r.matchMap id = none →
      (LocalMatchRegistry.Join r id node userID sessionID username fromNode).1 = (false, false))
  ∧ (∀ mh, node = r.node → findMatch r.matchMap id = some mh →
      mh.mailbox.length ≥ mh.capacity →
      (LocalMatchRegistry.Join r id node userID sessionID username fromNode).1 = (true, false))
  ∧ (∀ mh, node = r.node → findMatch r.matchMap id = some mh →
      mh.mailbox.length < mh.capacity → mh.joinReply = none →
      (LocalMatchRegistry.Join r id node userID sessionID username fromNode).1 = (true, false))
  ∧ (∀ mh a, node = r.node → findMatch r.matchMap id = some mh →
      mh.mailbox.length < mh.capacity → mh.joinReply = some a →
      (LocalMatchRegistry.Join r id node userID sessionID username fromNode).1 = (true, a)) := by
  refine ⟨?_, ?_, ?_, ?_, ?_⟩
  · intro h
    simp [LocalMatchRegistry.Join, h]
  · intro h hf
    simp [LocalMatchRegistry.Join, h, hf]
  · intro mh h hf hfull
    simp [LocalMatchRegistry.Join, h, hf, MatchHandlerState.queueCall, hfull]
  · intro mh h hf hroom hto
    simp [LocalMatchRegistry.Join, h, hf, MatchHandlerState.queueCall,
      Nat.not_le.mpr hroom, hto]
  · intro mh a h hf hroom hr
    simp [LocalMatchRegistry.Join, h, hf, MatchHandlerState.queueCall,
      Nat.not_le.mpr hroom, hr]

/-- Witness for C2: a registry on node `n1` holding match 5 with a free
mailbox whose actor answers `true` before the timeout accepts the join. -/
theorem c2_registry_join_witness :
    (LocalMatchRegistry.Join ⟨"n1", [(5, ⟨[], 2, some true⟩)]⟩ 5 "n1" 1 2 "u" "n1").1
      = (true, true) :=
  (c2_registry_join ⟨"n1", [(5, ⟨[], 2, some true⟩)]⟩ 5 "n1" 1 2 "u" "n1").2.2.2.2
    ⟨[], 2, some true⟩ true rfl rfl (by decide) rfl

/-! ## Claim C5: node-affinity mismatches never touch registry state -/

/-- C5: a registry `Join`/`Leave`/`SendData` addressed to a node other than
the local one returns not-found / is a no-op and leaves the registry state —
the directory and every mailbox — unchanged.  The result is pinned for every
possible directory content, so the call's outcome does not depend on (read)
the directory either. -/
theorem c5_remote_node_noop (r : LocalMatchRegistry) (id : UUID) (node : String)
    (userID sessionID : UUID) (username fromNode : String) (opCode : Int)
    (payload : List Nat) (presences : List Presence) (h : node ≠ r.node) :
    LocalMatchRegistry.Join r id node userID sessionID username fromNode = ((false, false), r)
  ∧ LocalMatchRegistry.Leave r id node presences = r
  ∧ LocalMatchRegistry.SendData r id node userID sessionID username fromNode opCode payload
      = r := by
  refine ⟨?_, ?_, ?_⟩ <;>
    simp [LocalMatchRegistry.Join, LocalMatchRegistry.Leave, LocalMatchRegistry.SendData, h]

/-- Witness for C5: node `x` differs from the local node `n1`; all three
calls leave the populated registry untouched. -/
theorem c5_remote_node_noop_witness :
    LocalMatchRegistry.Join ⟨"n1", [(5, ⟨[], 2, some true⟩)]⟩ 5 "x" 1 2 "u" "n"
        = ((false, false), ⟨"n1", [(5, ⟨[], 2, some true⟩)]⟩)
  ∧ LocalMatchRegistry.Leave ⟨"n1", [(5, ⟨[], 2, some true⟩)]⟩ 5 "x" []
        = ⟨"n1", [(5, ⟨[], 2, some true⟩)]⟩
  ∧ LocalMatchRegistry.SendData ⟨"n1", [(5, ⟨[], 2, some true⟩)]⟩ 5 "x" 1 2 "u" "n" 0 []
        = ⟨"n1", [(5, ⟨[], 2, some true⟩)]⟩ :=
  c5_remote_node_noop ⟨"n1", [(5, ⟨[], 2, some true⟩)]⟩ 5 "x" 1 2 "u" "n" 0 [] []
    (by decide)

/-! ## Claim C8: RemoveMatch -/

/-- C8: after `RemoveMatch(id, stream)` the identifier is absent from the
directory and the stream's membership has been evicted (every entry on the
stream is gone, all others survive) — the eviction runs even when `id` was
never registered, in which case the directory is left unchanged; the whole
operation is idempotent. -/
theorem c8_remove_match (r : LocalMatchRegistry) (tr : TrackerState) (id : UUID)
    (stream : PresenceStream) :
    findMatch (LocalMatchRegistry.RemoveMatch r tr id stream).1.matchMap id = none
  ∧ (∀ e ∈ (LocalMatchRegistry.RemoveMatch r tr id stream).2, ¬ e.stream = stream)
  ∧ (∀ e ∈ tr, ¬ e.stream = stream → e ∈ (LocalMatchRegistry.RemoveMatch r tr id stream).2)
  ∧ (findMatch r.matchMap id = none → (LocalMatchRegistry.RemoveMatch r tr id stream).1 = r)
  ∧ LocalMatchRegistry.RemoveMatch (LocalMatchRegistry.RemoveMatch r tr id stream).1
      (LocalMatchRegistry.RemoveMatch r tr id stream).2 id stream
      = LocalMatchRegistry.RemoveMatch r tr id stream := by
  refine ⟨?_, ?_, ?_, ?_, ?_⟩
  · simp [LocalMatchRegistry.RemoveMatch, findMatch, List.find?_eq_none, List.mem_filter]
  · intro e he
    simp [LocalMatchRegistry.RemoveMatch, untrackByStream, List.mem_filter] at he
    exact he.2
  · intro e he hs
    simp [LocalMatchRegistry.RemoveMatch, untrackByStream, List.mem_filter]
    exact ⟨he, hs⟩
  · intro hnone
    have hfind : r.matchMap.find? (fun p => decide (p.1 = id)) = none := by
      cases hf : r.matchMap.find? (fun p => decide (p.1 = id)) with
      | none => rfl
      | some q => simp [findMatch, hf] at hnone
    have hall := List.find?_eq_none.mp hfind
    have heq : r.matchMap.filter (fun p => !decide (p.1 = id)) = r.matchMap :=
      List.filter_eq_self.mpr (fun p hp => by simpa using hall p hp)
    simp [LocalMatchRegistry.RemoveMatch, heq]
  · have h1 : ∀ (l : List (UUID × MatchHandlerState)),
        (l.filter (fun p => decide (¬ p.1 = id))).filter (fun p => decide (¬ p.1 = id))
          = l.filter (fun p => decide (¬ p.1 = id)) := by
      intro l
      exact List.filter_eq_self.mpr (fun p hp => (List.mem_filter.mp hp).2)
    have h2 : ∀ (t : TrackerState), untrackByStream (untrackByStream t stream) stream
        = untrackByStream t stream := by
      intro t
      exact List.filter_eq_self.mpr (fun e he => (List.mem_filter.mp he).2)
    simp [LocalMatchRegistry.RemoveMatch, h1, h2, untrackByStream]

/-- Witness for C8: removing match 5 clears it from the directory and evicts
the stream member even though a second match and an off-stream presence
survive; removing an unknown identifier leaves the directory unchanged. -/
theorem c8_remove_match_witness :
    findMatch (LocalMatchRegistry.RemoveMatch ⟨"n1", [(5, ⟨[], 2, none⟩)]⟩
      [⟨1, ⟨StreamMode.relayed, 9, ""⟩, 2, ⟨"u", 0⟩⟩] 5
      ⟨StreamMode.relayed, 9, ""⟩).1.matchMap 5 = none
  ∧ (LocalMatchRegistry.RemoveMatch ⟨"n1", [(5, ⟨[], 2, none⟩)]⟩
      [⟨1, ⟨StreamMode.relayed, 9, ""⟩, 2, ⟨"u", 0⟩⟩] 7
      ⟨StreamMode.relayed, 9, ""⟩).1 = ⟨"n1", [(5, ⟨[], 2, none⟩)]⟩ :=
  ⟨(c8_remove_match ⟨"n1", [(5, ⟨[], 2, none⟩)]⟩
      [⟨1, ⟨StreamMode.relayed, 9, ""⟩, 2, ⟨"u", 0⟩⟩] 5 ⟨StreamMode.relayed, 9, ""⟩).1,
   (c8_remove_match ⟨"n1", [(5, ⟨[], 2, none⟩)]⟩
      [⟨1, ⟨StreamMode.relayed, 9, ""⟩, 2, ⟨"u", 0⟩⟩] 7
      ⟨StreamMode.relayed, 9, ""⟩).2.2.2.1 (by decide)⟩

/-! ## Tracker helper lemmas -/

/-- A successful local lookup implies the stream is non-empty. -/
theorem streamExists_of_lookup {tr : TrackerState} {sid : UUID} {s : PresenceStream}
    {uid : UUID} {m : PresenceMeta}
    (h : getLocalBySessionIDStreamUserID tr sid s uid = some m) :
    streamExists tr s = true := by
  unfold getLocalBySessionIDStreamUserID at h
  rcases Option.map_eq_some'.mp h with ⟨e, hfind, hm⟩
  have hmem := List.mem_of_find?_eq_some hfind
  have hpred := List.find?_some hfind
  simp only [decide_eq_true_eq] at hpred
  unfold streamExists
  exact List.any_eq_true.mpr ⟨e, hmem, by simp [hpred.2.1]⟩

/-- The stream membership list is empty exactly when the stream does not
exist. -/
theorem listByStream_eq_nil_iff (tr : TrackerState) (s : PresenceStream) :
    listByStream tr s = [] ↔ streamExists tr s = false := by
  unfold listByStream streamExists
  constructor
  · intro h
    have hf : tr.filter (fun e => decide (e.stream = s)) = [] := by
      cases hc : tr.filter (fun e => decide (e.stream = s)) with
      | nil => rfl
      | cons x xs => simp [hc] at h
    rw [List.any_eq_false]
    intro e he
    intro hpred
    have : e ∈ tr.filter (fun e => decide (e.stream = s)) :=
      List.mem_filter.mpr ⟨he, hpred⟩
    simp [hf] at this
  · intro h
    rw [List.any_eq_false] at h
    have : tr.filter (fun e => decide (e.stream = s)) = [] := by
      rw [List.filter_eq_nil_iff]
      intro e he
      exact h e he
    simp [this]

/-! ## Claim C6: relayed join requires an existing (non-empty) stream -/

/-- Is the reply the `Match` success envelope? -/
def PipelineReply.isMatchReply : PipelineReply → Bool
  | PipelineReply.matchInfo _ _ _ => true
  | _ => false

/-- C6: a relayed join (empty node label) to a stream with zero tracked
presences replies MatchNotFound and changes nothing; once the stream has at
least one presence, any joiner gets the `Match` success reply and the match
registry (actor arbitration) is never consulted or changed. -/
theorem c6_relayed_join_existence (matchID : UUID) (mids : String) (sess : SessionInfo)
    (st : PipelineState) :
    (listByStream st.tracker ⟨StreamMode.relayed, matchID, ""⟩ = [] →
      matchJoinAfterParse matchID "" mids sess st
        = (PipelineReply.err ErrorCode.matchNotFound, st))
  ∧ (listByStream st.tracker ⟨StreamMode.relayed, matchID, ""⟩ ≠ [] →
      (matchJoinAfterParse matchID "" mids sess st).1.isMatchReply = true
      ∧ (matchJoinAfterParse matchID "" mids sess st).2.registry = st.registry) := by
  constructor
  · intro h
    have hse := (listByStream_eq_nil_iff _ _).mp h
    simp [matchJoinAfterParse, hse]
  · intro h
    have hse : streamExists st.tracker ⟨StreamMode.relayed, matchID, ""⟩ = true := by
      cases hb : streamExists st.tracker ⟨StreamMode.relayed, matchID, ""⟩ with
      | false => exact absurd ((listByStream_eq_nil_iff _ _).mpr hb) h
      | true => rfl
    cases hl : getLocalBySessionIDStreamUserID st.tracker sess.id
        ⟨StreamMode.relayed, matchID, ""⟩ sess.userId with
    | some meta =>
      simp [matchJoinAfterParse, hse, hl, matchInfoReply, PipelineReply.isMatchReply]
    | none =>
      simp [matchJoinAfterParse, hse, hl, matchInfoReply, PipelineReply.isMatchReply]

/-- Witness for C6: joining a relayed match whose stream is empty is answered
MatchNotFound without touching the state. -/
theorem c6_relayed_join_existence_witness :
    matchJoinAfterParse 9 "" "m" ⟨2, 1, "u", 0⟩ ⟨"n1", [], ⟨"n1", []⟩⟩
      = (PipelineReply.err ErrorCode.matchNotFound, ⟨"n1", [], ⟨"n1", []⟩⟩) :=
  (c6_relayed_join_existence 9 "m" ⟨2, 1, "u", 0⟩ ⟨"n1", [], ⟨"n1", []⟩⟩).1 rfl

/-! ## Claim C7: joining while already a member is idempotent -/

/-- C7: a joiner whose (session, user) is already tracked on the target
stream receives the `Match` success envelope built from the current
membership, and the whole state — tracker and registry — is unchanged: no
registry Join call is made and the user is not re-tracked. -/
theorem c7_rejoin_idempotent (matchID : UUID) (node : String) (mids : String)
    (sess : SessionInfo) (st : PipelineState) (meta : PresenceMeta)
    (h : getLocalBySessionIDStreamUserID st.tracker sess.id
        ⟨if node = "" then StreamMode.relayed else StreamMode.authoritative, matchID, node⟩
        sess.userId = some meta) :
    matchJoinAfterParse matchID node mids sess st
      = (matchInfoReply mids
          (listByStream st.tracker
            ⟨if node = "" then StreamMode.relayed else StreamMode.authoritative,
              matchID, node⟩)
          sess meta, st) := by
  have hse := streamExists_of_lookup h
  simp [matchJoinAfterParse, hse, h]

/-- Witness for C7: the already-tracked user 1 on session 2 re-joins the
authoritative match 5 on node n1; the reply repeats the current membership
and the state (including a registry that would have accepted a forwarded
join) is untouched. -/
theorem c7_rejoin_idempotent_witness :
    matchJoinAfterParse 5 "n1" "m" ⟨2, 1, "u", 0⟩
      ⟨"n1", [⟨2, ⟨StreamMode.authoritative, 5, "n1"⟩, 1, ⟨"u", 0⟩⟩],
        ⟨"n1", [(5, ⟨[], 4, some true⟩)]⟩⟩
      = (matchInfoReply "m"
          (listByStream [⟨2, ⟨StreamMode.authoritative, 5, "n1"⟩, 1, ⟨"u", 0⟩⟩]
            ⟨if "n1" = "" then StreamMode.relayed else StreamMode.authoritative, 5, "n1"⟩)
          ⟨2, 1, "u", 0⟩ ⟨"u", 0⟩,
        ⟨"n1", [⟨2, ⟨StreamMode.authoritative, 5, "n1"⟩, 1, ⟨"u", 0⟩⟩],
          ⟨"n1", [(5, ⟨[], 4, some true⟩)]⟩⟩) :=
  c7_rejoin_idempotent 5 "n1" "m" ⟨2, 1, "u", 0⟩
    ⟨"n1", [⟨2, ⟨StreamMode.authoritative, 5, "n1"⟩, 1, ⟨"u", 0⟩⟩],
      ⟨"n1", [(5, ⟨[], 4, some true⟩)]⟩⟩ ⟨"u", 0⟩ (by decide)

/-! ## Claim C10: matchCreate -/

/-- Hex digits are never the identifier separator. -/
theorem hexDigit_ne_colon {m : Nat} (h : m < 16) : hexDigit m ≠ ':' := by
  revert m
  decide

/-- The canonical hex rendering never contains the separator. -/
theorem toHexChars_no_colon : ∀ (k n : Nat), ':' ∉ toHexChars k n := by
  intro k
  induction k with
  | zero => intro n h; simp [toHexChars] at h
  | succ k ih =>
    intro n h
    rw [toHexChars, List.mem_append] at h
    rcases h with h | h
    · exact ih _ h
    · rw [List.mem_singleton] at h
      exact hexDigit_ne_colon (Nat.mod_lt _ (by decide)) h.symm

/-- The canonical UUID string never contains the separator. -/
theorem uuidToString_no_colon (u : UUID) : ':' ∉ (uuidToString u).data := by
  have hhex : ':' ∉ toHexChars 32 u := toHexChars_no_colon 32 u
  intro hmem
  have hdata : (uuidToString u).data
      = (toHexChars 32 u).take 8 ++ '-' :: (((toHexChars 32 u).drop 8).take 4)
        ++ '-' :: (((toHexChars 32 u).drop 12).take 4)
        ++ '-' :: (((toHexChars 32 u).drop 16).take 4)
        ++ '-' :: ((toHexChars 32 u).drop 20) := rfl
  rw [hdata] at hmem
  simp only [List.mem_append, List.mem_cons, or_assoc] at hmem
  rcases hmem with h | h | h | h | h | h | h | h | h
  · exact hhex (List.mem_of_mem_take h)
  · exact absurd h (by decide)
  · exact hhex (List.mem_of_mem_drop (List.mem_of_mem_take h))
  · exact absurd h (by decide)
  · exact hhex (List.mem_of_mem_drop (List.mem_of_mem_take h))
  · exact absurd h (by decide)
  · exact hhex (List.mem_of_mem_drop (List.mem_of_mem_take h))
  · exact absurd h (by decide)
  · exact hhex (List.mem_of_mem_drop h)

/-- Splitting at the first colon of `l ++ ':' :: r` recovers `(l, r)` when `l`
is colon-free. -/
theorem splitColon2_append (l r : List Char) (h : ':' ∉ l) :
    splitColon2 (l ++ ':' :: r) = some (l, r) := by
  induction l with
  | nil => simp [splitColon2]
  | cons c cs ih =>
    have hc : c ≠ ':' := fun he => h (he ▸ List.mem_cons_self c cs)
    have hcs : ':' ∉ cs := fun hm => h (List.mem_cons_of_mem c hm)
    simp [splitColon2, hc, ih hcs]

/-- C10: `matchCreate` never touches the match registry, tracks exactly the
creating session on the relayed-mode stream of the fresh identifier, and
replies with the `Match` descriptor whose identifier is the canonical UUID
string followed by a bare separator (empty node label, as witnessed by the
identifier split) and whose presence list holds exactly the creator as self. -/
theorem c10_match_create (matchID : UUID) (sess : SessionInfo) (st : PipelineState) :
    (matchCreate matchID sess st).2.registry = st.registry
  ∧ (matchCreate matchID sess st).2.node = st.node
  ∧ (matchCreate matchID sess st).2.tracker
      = st.tracker ++ [⟨sess.id, ⟨StreamMode.relayed, matchID, ""⟩, sess.userId,
          ⟨sess.username, sess.format⟩⟩]
  ∧ (matchCreate matchID sess st).1
      = PipelineReply.matchInfo (uuidToString matchID ++ ":")
          [⟨uuidToString sess.userId, uuidToString sess.id, sess.username⟩]
          ⟨uuidToString sess.userId, uuidToString sess.id, sess.username⟩
  ∧ splitColon2 (uuidToString matchID ++ ":").data
      = some ((uuidToString matchID).data, []) := by
  refine ⟨rfl, rfl, ?_, rfl, ?_⟩
  · simp [matchCreate, track]
  · have : (uuidToString matchID ++ ":").data = (uuidToString matchID).data ++ ':' :: [] := by
      simp
    rw [this]
    exact splitColon2_append _ _ (uuidToString_no_colon matchID)

/-! ## Claim C9: unparseable filter entries drop the whole relayed send -/

/-- A filter list only parses when every entry's identifiers parse. -/
theorem parseFilterEntries_eq_none {l : List WirePresence}
    (h : ∃ w ∈ l, uuidFromString w.userId = none ∨ uuidFromString w.sessionId = none) :
    parseFilterEntries l = none := by
  induction l with
  | nil => simp at h
  | cons w rest ih =>
    rcases h with ⟨x, hx, hbad⟩
    rcases List.mem_cons.mp hx with rfl | hx
    · rcases hbad with hb | hb
      · simp [parseFilterEntries, hb]
      · cases hu : uuidFromString x.userId <;> simp [parseFilterEntries, hu, hb]
    · have hrest := ih ⟨x, hx, hbad⟩
      cases hu : uuidFromString w.userId with
      | none => simp [parseFilterEntries, hu]
      | some u =>
        cases hs : uuidFromString w.sessionId with
        | none => simp [parseFilterEntries, hu, hs]
        | some s => simp [parseFilterEntries, hu, hs, hrest]

/-- C9: a relayed data-send whose non-empty filter list contains any entry
with an unparseable userID or sessionID is dropped wholesale: for every
tracker, registry and message content, nothing is delivered, the state is
unchanged (so no membership lookup result can influence anything), and — the
handler producing no reply envelope at all on this path — no error reaches
the sender. -/
theorem c9_bad_filter_drops (matchID : UUID) (incoming : MatchDataSendMsg)
    (sess : SessionInfo) (st : PipelineState)
    (hbad : ∃ w ∈ incoming.presences,
      uuidFromString w.userId = none ∨ uuidFromString w.sessionId = none) :
    matchDataSendAfterParse matchID "" incoming sess st = (none, st) := by
  have hp := parseFilterEntries_eq_none hbad
  simp [matchDataSendAfterParse, hp]

/-- Witness for C9: a filter entry with userID "zzz" suppresses delivery even
though sender and recipient are both tracked on the relayed stream. -/
theorem c9_bad_filter_drops_witness :
    matchDataSendAfterParse 9 "" ⟨"m", 0, [], [⟨"zzz", "zzz", "x"⟩]⟩ ⟨2, 1, "u", 0⟩
      ⟨"n1", [⟨2, ⟨StreamMode.relayed, 9, ""⟩, 1, ⟨"u", 0⟩⟩,
              ⟨4, ⟨StreamMode.relayed, 9, ""⟩, 3, ⟨"v", 0⟩⟩], ⟨"n1", []⟩⟩
      = (none, ⟨"n1", [⟨2, ⟨StreamMode.relayed, 9, ""⟩, 1, ⟨"u", 0⟩⟩,
              ⟨4, ⟨StreamMode.relayed, 9, ""⟩, 3, ⟨"v", 0⟩⟩], ⟨"n1", []⟩⟩) :=
  c9_bad_filter_drops 9 ⟨"m", 0, [], [⟨"zzz", "zzz", "x"⟩]⟩ ⟨2, 1, "u", 0⟩
    ⟨"n1", [⟨2, ⟨StreamMode.relayed, 9, ""⟩, 1, ⟨"u", 0⟩⟩,
            ⟨4, ⟨StreamMode.relayed, 9, ""⟩, 3, ⟨"v", 0⟩⟩], ⟨"n1", []⟩⟩
    ⟨⟨"zzz", "zzz", "x"⟩, by simp, Or.inl (by decide)⟩

/-! ## Claim C4: the authoritative-path membership gate

The claim states one uniform rule — non-member: silent drop; member: forward
to the registry — for all three operations.  The code follows that rule only
for data-send.  For join the lookup gates idempotency the other way around
(members are answered directly, non-members are forwarded), and for leave
there is neither a membership check nor any registry call. -/

/-- Counterexample to C4 as stated, at a concrete state on node `n1` whose
authoritative match 5 has session 2 / user 1 tracked: (i) that member's
MatchJoin does not forward to the registry's Join — the handler leaves the
registry unchanged although a forwarded Join visibly enqueues a join attempt —
and (ii) a non-member's MatchJoin (session 8 / user 7) is not silently
dropped: it changes the registry (the forwarded join attempt). -/
theorem c4_authoritative_gate_counterexample :
    (matchJoinAfterParse 5 "n1" "m" ⟨2, 1, "u", 0⟩
        ⟨"n1", [⟨2, ⟨StreamMode.authoritative, 5, "n1"⟩, 1, ⟨"u", 0⟩⟩],
          ⟨"n1", [(5, ⟨[], 4, some true⟩)]⟩⟩).2.registry
      = ⟨"n1", [(5, ⟨[], 4, some true⟩)]⟩
  ∧ (LocalMatchRegistry.Join ⟨"n1", [(5, ⟨[], 4, some true⟩)]⟩ 5 "n1" 1 2 "u" "n1").2
      ≠ ⟨"n1", [(5, ⟨[], 4, some true⟩)]⟩
  ∧ (matchJoinAfterParse 5 "n1" "m" ⟨8, 7, "w", 0⟩
        ⟨"n1", [⟨2, ⟨StreamMode.authoritative, 5, "n1"⟩, 1, ⟨"u", 0⟩⟩],
          ⟨"n1", [(5, ⟨[], 4, some true⟩)]⟩⟩).2.registry
      ≠ ⟨"n1", [(5, ⟨[], 4, some true⟩)]⟩ := by
  refine ⟨by decide, by decide, by decide⟩

/-- C4 as amended: on the authoritative path the membership gate belongs to
data-send alone — a non-member's data-send is silently dropped with no state
change, a member's is forwarded verbatim to the registry's SendData.  A
MatchJoin uses the lookup for idempotency instead: a non-member's join is
forwarded verbatim to the registry's Join and the verdict mapped to
MatchNotFound / MatchJoinRejected / the Match success envelope (members are
answered directly, as proved for C7).  A MatchLeave makes no membership check
and no registry call at all: it untracks the session directly and sends the
empty acknowledgement. -/
theorem c4_authoritative_gate_amended (matchID : UUID) (node : String) (mids : String)
    (incoming : MatchDataSendMsg) (sess : SessionInfo) (st : PipelineState)
    (hn : node ≠ "") :
    (getLocalBySessionIDStreamUserID st.tracker sess.id
        ⟨StreamMode.authoritative, matchID, node⟩ sess.userId = none →
      matchDataSendAfterParse matchID node incoming sess st = (none, st))
  ∧ (∀ m, getLocalBySessionIDStreamUserID st.tracker sess.id
        ⟨StreamMode.authoritative, matchID, node⟩ sess.userId = some m →
      matchDataSendAfterParse matchID node incoming sess st
        = (none, ⟨st.node, st.tracker,
            LocalMatchRegistry.SendData st.registry matchID node sess.userId sess.id
              sess.username st.node incoming.opCode incoming.data⟩))
  ∧ (getLocalBySessionIDStreamUserID st.tracker sess.id
        ⟨StreamMode.authoritative, matchID, node⟩ sess.userId = none →
      (matchJoinAfterParse matchID node mids sess st).2.registry
          = (LocalMatchRegistry.Join st.registry matchID node sess.userId sess.id
              sess.username st.node).2
      ∧ ((LocalMatchRegistry.Join st.registry matchID node sess.userId sess.id
            sess.username st.node).1.1 = false →
          (matchJoinAfterParse matchID node mids sess st).1
            = PipelineReply.err ErrorCode.matchNotFound)
      ∧ ((LocalMatchRegistry.Join st.registry matchID node sess.userId sess.id
            sess.username st.node).1.1 = true →
          (LocalMatchRegistry.Join st.registry matchID node sess.userId sess.id
            sess.username st.node).1.2 = false →
          (matchJoinAfterParse matchID node mids sess st).1
            = PipelineReply.err ErrorCode.matchJoinRejected)
      ∧ ((LocalMatchRegistry.Join st.registry matchID node sess.userId sess.id
            sess.username st.node).1.1 = true →
          (LocalMatchRegistry.Join st.registry matchID node sess.userId sess.id
            sess.username st.node).1.2 = true →
          (matchJoinAfterParse matchID node mids sess st).1.isMatchReply = true))
  ∧ matchLeaveAfterParse matchID node sess st
      = (PipelineReply.ack, ⟨st.node,
          untrack st.tracker sess.id ⟨StreamMode.authoritative, matchID, node⟩
            sess.userId, st.registry⟩) := by
  refine ⟨?_, ?_, ?_, ?_⟩
  · intro h
    simp [matchDataSendAfterParse, hn, h]
  · intro m h
    simp [matchDataSendAfterParse, hn, h]
  · intro h
    refine ⟨?_, ?_, ?_, ?_⟩
    · rcases hj : (LocalMatchRegistry.Join st.registry matchID node sess.userId sess.id
          sess.username st.node) with ⟨⟨f, a⟩, r2⟩
      cases f <;> cases a <;>
        simp [matchJoinAfterParse, hn, h, hj, matchInfoReply]
    · intro hf
      rcases hj : (LocalMatchRegistry.Join st.registry matchID node sess.userId sess.id
          sess.username st.node) with ⟨⟨f, a⟩, r2⟩
      rw [hj] at hf
      simp at hf
      subst hf
      simp [matchJoinAfterParse, hn, h, hj]
    · intro hf ha
      rcases hj : (LocalMatchRegistry.Join st.registry matchID node sess.userId sess.id
          sess.username st.node) with ⟨⟨f, a⟩, r2⟩
      rw [hj] at hf ha
      simp at hf ha
      subst hf
      subst ha
      simp [matchJoinAfterParse, hn, h, hj]
    · intro hf ha
      rcases hj : (LocalMatchRegistry.Join st.registry matchID node sess.userId sess.id
          sess.username st.node) with ⟨⟨f, a⟩, r2⟩
      rw [hj] at hf ha
      simp at hf ha
      subst hf
      subst ha
      simp [matchJoinAfterParse, hn, h, hj, matchInfoReply, PipelineReply.isMatchReply]
  · simp [matchLeaveAfterParse, hn]

/-- Witness for the amended C4: a member's data-send on node n1 forwards
verbatim to SendData (the payload lands in match 5's mailbox). -/
theorem c4_authoritative_gate_amended_witness :
    matchDataSendAfterParse 5 "n1" ⟨"m", 7, [1, 2], []⟩ ⟨2, 1, "u", 0⟩
      ⟨"n1", [⟨2, ⟨StreamMode.authoritative, 5, "n1"⟩, 1, ⟨"u", 0⟩⟩],
        ⟨"n1", [(5, ⟨[], 4, some true⟩)]⟩⟩
      = (none, ⟨"n1", [⟨2, ⟨StreamMode.authoritative, 5, "n1"⟩, 1, ⟨"u", 0⟩⟩],
          LocalMatchRegistry.SendData ⟨"n1", [(5, ⟨[], 4, some true⟩)]⟩
            5 "n1" 1 2 "u" "n1" 7 [1, 2]⟩) :=
  (c4_authoritative_gate_amended 5 "n1" "m" ⟨"m", 7, [1, 2], []⟩ ⟨2, 1, "u", 0⟩
    ⟨"n1", [⟨2, ⟨StreamMode.authoritative, 5, "n1"⟩, 1, ⟨"u", 0⟩⟩],
      ⟨"n1", [(5, ⟨[], 4, some true⟩)]⟩⟩ (by decide)).2.1 ⟨"u", 0⟩ (by decide)

/-! ## Claim C3: which identifier does the pipeline parse?

`matchLeave` parses the identifier of its own message.  `matchJoin` (line 64)
and `matchDataSend` (line 213), however, validate
`strings.SplitN(envelope.GetMatchLeave().MatchId, ":", 2)`: the `MatchLeave`
field of the envelope, not the identifier carried in the join / data-send
message itself — `matchJoin` even stores its own `m.GetMatchId()` in
`matchIDString` on the line before and then never parses it.  For a join or
data-send envelope the oneof holds no `MatchLeave`, so `GetMatchLeave()` is
nil and the `.MatchId` field access faults; the well-formed identifier the
client sent is never acted upon. -/

/-- C3 fails on the code: a MatchJoin (resp. MatchDataSend) envelope carrying
the well-formed relayed identifier `"00000000-…-000000000000:"` — on a state
where that relayed stream even has a member — does not act on the parsed
identifier: the handler dereferences the envelope's absent MatchLeave message
(modelled as the `none` outcome).  Only `matchLeave` parses the identifier of
its own inbound message, untracking the session as claimed. -/
theorem c3_parse_uses_matchleave_field :
    pipelineMatchJoin
        ⟨"1", EnvelopeMsg.matchJoinE ⟨MatchJoinId.midStr
          "00000000-0000-0000-0000-000000000000:"⟩⟩ ⟨2, 1, "u", 0⟩
        ⟨"n1", [⟨4, ⟨StreamMode.relayed, 0, ""⟩, 3, ⟨"v", 0⟩⟩], ⟨"n1", []⟩⟩ = none
  ∧ pipelineMatchDataSend
        ⟨"1", EnvelopeMsg.matchDataSendE
          ⟨"00000000-0000-0000-0000-000000000000:", 0, [], []⟩⟩ ⟨2, 1, "u", 0⟩
        ⟨"n1", [⟨4, ⟨StreamMode.relayed, 0, ""⟩, 3, ⟨"v", 0⟩⟩], ⟨"n1", []⟩⟩ = none
  ∧ pipelineMatchLeave
        ⟨"1", EnvelopeMsg.matchLeaveE ⟨"00000000-0000-0000-0000-000000000000:"⟩⟩
        ⟨2, 1, "u", 0⟩ ⟨"n1", [⟨2, ⟨StreamMode.relayed, 0, ""⟩, 1, ⟨"u", 0⟩⟩], ⟨"n1", []⟩⟩
      = some (PipelineReply.ack, ⟨"n1", [], ⟨"n1", []⟩⟩) := by
  refine ⟨rfl, rfl, ?_⟩
  decide

/-! ## Claim C1: the relayed recipient computation

The routing loop removes elements by the Go swap-remove idiom, so the list it
returns is a permutation of the set the spec describes; the claim is about
the recipient set, proved below as a membership characterisation against
`specRecipients`.  The helper lemmas first pin down `swapRemove`. -/

/-- For a non-empty list, `swapRemove` is set-then-dropLast on its concat
form. -/
theorem swapRemove_concat_eq {α : Type} (ys : List α) (a : α) (i : Nat) :
    swapRemove (ys ++ [a]) i = ((ys ++ [a]).set i a).dropLast := by
  unfold swapRemove
  rw [List.getLast?_concat]

theorem length_swapRemove {α : Type} {l : List α} {i : Nat} (h : i < l.length) :
    (swapRemove l i).length = l.length - 1 := by
  rcases hg : l.getLast? with _ | a
  · rw [List.getLast?_eq_none_iff] at hg
    subst hg
    simp at h
  · rcases List.getLast?_eq_some_iff.mp hg with ⟨ys, rfl⟩
    rw [swapRemove_concat_eq]
    simp

theorem take_swapRemove {α : Type} {l : List α} {i : Nat} (h : i < l.length) :
    (swapRemove l i).take i = l.take i := by
  rcases hg : l.getLast? with _ | a
  · rw [List.getLast?_eq_none_iff] at hg
    subst hg
    simp at h
  · rcases List.getLast?_eq_some_iff.mp hg with ⟨ys, rfl⟩
    have hlen : (ys ++ [a]).length = ys.length + 1 := by simp
    have hi : i ≤ ys.length := by
      rw [hlen] at h
      omega
    rw [swapRemove_concat_eq]
    rcases Nat.lt_or_ge i ys.length with hlt | hge
    · rw [List.set_append_left _ _ hlt, List.dropLast_concat]
      rw [List.take_append_of_le_length hi, List.set_take]
      have hle : (ys.take i).length ≤ i := by simp
      rw [List.set_eq_of_length_le hle]
    · have hieq : i = ys.length := Nat.le_antisymm hi hge
      subst hieq
      rw [List.set_append_right _ _ hge]
      simp only [Nat.sub_self, List.set_cons_zero]
      rw [List.dropLast_concat, List.take_append_of_le_length hi]

theorem drop_swapRemove_perm {α : Type} {l : List α} {i : Nat} (h : i < l.length) :
    List.Perm ((swapRemove l i).drop i) (l.drop (i + 1)) := by
  rcases hg : l.getLast? with _ | a
  · rw [List.getLast?_eq_none_iff] at hg
    subst hg
    simp at h
  · rcases List.getLast?_eq_some_iff.mp hg with ⟨ys, rfl⟩
    have hlen : (ys ++ [a]).length = ys.length + 1 := by simp
    have hi : i ≤ ys.length := by
      rw [hlen] at h
      omega
    rw [swapRemove_concat_eq]
    rcases Nat.lt_or_ge i ys.length with hlt | hge
    · rw [List.set_append_left _ _ hlt, List.dropLast_concat]
      have hd : (ys.set i a).drop i = (ys.drop i).set 0 a := by
        rw [List.drop_set]
        simp
      rw [hd, List.drop_eq_getElem_cons hlt]
      have hia : i + 1 ≤ ys.length := hlt
      rw [List.drop_append_of_le_length hia]
      simp only [List.set_cons_zero]
      exact (List.perm_append_singleton a (ys.drop (i + 1))).symm
    · have hieq : i = ys.length := Nat.le_antisymm hi hge
      subst hieq
      rw [List.set_append_right _ _ hge]
      simp only [Nat.sub_self, List.set_cons_zero]
      rw [List.dropLast_concat]
      have h1 : ys.drop ys.length = [] := by simp
      have h2 : (ys ++ [a]).drop (ys.length + 1) = [] := by
        apply List.drop_eq_nil_of_le
        simp
      rw [h1, h2]

theorem swapRemove_perm {α : Type} {l : List α} {i : Nat} (h : i < l.length) :
    List.Perm (swapRemove l i) (l.take i ++ l.drop (i + 1)) := by
  have h1 : swapRemove l i = l.take i ++ (swapRemove l i).drop i := by
    conv_lhs => rw [← List.take_append_drop i (swapRemove l i)]
    rw [take_swapRemove h]
  rw [h1]
  exact List.Perm.append_left _ (drop_swapRemove_perm h)

theorem mem_swapRemove_iff {α : Type} {l : List α} {i : Nat} (h : i < l.length)
    {q : α} : q ∈ swapRemove l i ↔ q ∈ l.take i ∨ q ∈ l.drop (i + 1) := by
  rw [(swapRemove_perm h).mem_iff, List.mem_append]

/-- Taking the element at `i` out of the middle: `l` splits around `l[i]`. -/
theorem list_split_at {α : Type} (l : List α) (i : Nat) (h : i < l.length) :
    l = l.take i ++ l[i] :: l.drop (i + 1) := by
  conv_lhs => rw [← List.take_append_drop i l]
  rw [List.drop_eq_getElem_cons h]

/-- Distinct session keys make presence records equal when their sessions
agree (stream membership is keyed by session). -/
theorem presence_key_inj {ps : List Presence}
    (hnd : (ps.map Presence.sessionID).Nodup) {q r : Presence}
    (hq : q ∈ ps) (hr : r ∈ ps) (h : q.sessionID = r.sessionID) : q = r :=
  List.inj_on_of_nodup_map hnd hq hr h

/-- With distinct session keys the element at `i` occurs nowhere else. -/
theorem getElem_not_elsewhere {ps : List Presence} {i : Nat}
    (hnd : (ps.map Presence.sessionID).Nodup) (h : i < ps.length) :
    ps[i] ∉ ps.take i ∧ ps[i] ∉ ps.drop (i + 1) := by
  have hnd0 : ps.Nodup := hnd.of_map _
  have hsplit := list_split_at ps i h
  rw [hsplit] at hnd0
  rw [List.nodup_append] at hnd0
  rcases hnd0 with ⟨-, h2, hdisj⟩
  rw [List.nodup_cons] at h2
  refine ⟨fun hmem => ?_, h2.1⟩
  exact hdisj hmem (List.mem_cons_self _ _)

/-- `swapRemove` keeps the session keys distinct. -/
theorem nodup_swapRemove {ps : List Presence} {i : Nat}
    (hnd : (ps.map Presence.sessionID).Nodup) (h : i < ps.length) :
    ((swapRemove ps i).map Presence.sessionID).Nodup := by
  have hperm := (swapRemove_perm h).map Presence.sessionID
  rw [hperm.nodup_iff]
  have hsub : List.Sublist (ps.take i ++ ps.drop (i + 1)) ps := by
    conv_rhs => rw [list_split_at ps i h]
    exact (List.sublist_cons_self _ _).append_left _
  exact hnd.sublist (hsub.map _)

/-- A failed filter scan means no entry matches the presence. -/
theorem findFilterIdx_eq_none_iff {p : Presence} {fs : List matchDataFilter} :
    findFilterIdx p fs = none ↔
      ∀ f ∈ fs, ¬(p.sessionID = f.sessionID ∧ p.userID = f.userID) := by
  induction fs with
  | nil => simp [findFilterIdx]
  | cons f rest ih =>
    by_cases hm : p.sessionID = f.sessionID ∧ p.userID = f.userID
    · simp [findFilterIdx, hm]
    · rw [findFilterIdx, if_neg hm]
      simp only [Option.map_eq_none', ih, List.mem_cons]
      constructor
      · intro hall f2 hf
        rcases hf with rfl | hf
        · exact hm
        · exact hall f2 hf
      · intro hall f2 hf
        exact hall f2 (Or.inr hf)

/-- A successful filter scan returns an index whose entry matches. -/
theorem findFilterIdx_eq_some {p : Presence} {fs : List matchDataFilter} {j : Nat}
    (h : findFilterIdx p fs = some j) :
    ∃ hj : j < fs.length,
      p.sessionID = (fs.get ⟨j, hj⟩).sessionID ∧ p.userID = (fs.get ⟨j, hj⟩).userID := by
  induction fs generalizing j with
  | nil => simp [findFilterIdx] at h
  | cons f rest ih =>
    by_cases hm : p.sessionID = f.sessionID ∧ p.userID = f.userID
    · rw [findFilterIdx, if_pos hm] at h
      cases h
      exact ⟨by simp, hm⟩
    · rw [findFilterIdx, if_neg hm] at h
      rcases Option.map_eq_some'.mp h with ⟨j0, hj0, rfl⟩
      rcases ih hj0 with ⟨hlt, hmatch⟩
      exact ⟨by simpa using Nat.succ_lt_succ hlt, hmatch⟩

/-- Consuming the filter entry matched by the current presence does not change
which filters are available to any presence with a different session. -/
theorem filter_consume_iff {p q : Presence} {fs : List matchDataFilter} {j : Nat}
    (hj : j < fs.length)
    (hmatch : p.sessionID = (fs.get ⟨j, hj⟩).sessionID)
    (hne : q.sessionID ≠ p.sessionID) :
    (∃ f ∈ swapRemove fs j, q.sessionID = f.sessionID ∧ q.userID = f.userID) ↔
      (∃ f ∈ fs, q.sessionID = f.sessionID ∧ q.userID = f.userID) := by
  constructor
  · rintro ⟨f, hf, hmt⟩
    rcases (mem_swapRemove_iff hj).mp hf with hf | hf
    · exact ⟨f, List.mem_of_mem_take hf, hmt⟩
    · exact ⟨f, List.mem_of_mem_drop hf, hmt⟩
  · rintro ⟨f, hf, hmt⟩
    have hfj : f ≠ fs.get ⟨j, hj⟩ := by
      intro he
      apply hne
      rw [hmt.1, he, ← hmatch]
    refine ⟨f, (mem_swapRemove_iff hj).mpr ?_, hmt⟩
    have := list_split_at fs j hj
    rw [this, List.mem_append, List.mem_cons] at hf
    rcases hf with hf | hf | hf
    · exact Or.inl hf
    · exact absurd (by simpa using hf) hfj
    · exact Or.inr hf

/-- The restriction the (optional, partially consumed) filter list imposes on
a candidate: with `filters == nil` every candidate passes; otherwise the
candidate must be named by some remaining entry. -/
def filterCond : Option (List matchDataFilter) → Presence → Prop
  | none, _ => True
  | some fs, q => ∃ f ∈ fs, q.sessionID = f.sessionID ∧ q.userID = f.userID

/-- Loop invariant of `routeLoopF`, by induction on the fuel: provided the
fuel covers the remaining iterations and the membership has distinct session
keys, (i) `senderFound` ends up true iff it already was or the sender occurs
in the unscanned region, and (ii) the surviving slice holds exactly the
already-kept prefix plus those unscanned presences that are not the sender
and pass the current filters. -/
theorem routeLoopF_spec (sid uid : UUID) :
    ∀ (fuel i : Nat) (ps : List Presence) (filters : Option (List matchDataFilter))
      (sf : Bool),
      ps.length - i ≤ fuel →
      (ps.map Presence.sessionID).Nodup →
      ((routeLoopF sid uid fuel ps filters i sf).2 = true ↔
          (sf = true ∨ ∃ p ∈ ps.drop i, p.sessionID = sid ∧ p.userID = uid))
      ∧ ∀ q, (q ∈ (routeLoopF sid uid fuel ps filters i sf).1 ↔
          (q ∈ ps.take i ∨ (q ∈ ps.drop i ∧ ¬(q.sessionID = sid ∧ q.userID = uid) ∧
            filterCond filters q))) := by
  intro fuel
  induction fuel with
  | zero =>
    intro i ps filters sf hfuel hnd
    have hge : ps.length ≤ i := by omega
    constructor
    · simp only [routeLoopF, List.drop_eq_nil_of_le hge]
      simp
    · intro q
      simp only [routeLoopF, List.drop_eq_nil_of_le hge, List.take_of_length_le hge]
      simp
  | succ fuel ih =>
    intro i ps filters sf hfuel hnd
    by_cases h : i < ps.length
    · have hfuel1 : (swapRemove ps i).length - i ≤ fuel := by
        rw [length_swapRemove h]
        omega
      have hfuel2 : ps.length - (i + 1) ≤ fuel := by omega
      have hnd1 := nodup_swapRemove hnd h
      have hdropeq : ps.drop i = ps[i] :: ps.drop (i + 1) := List.drop_eq_getElem_cons h
      have hnotelse := getElem_not_elsewhere hnd h
      have himem : ps[i] ∈ ps := List.getElem_mem h
      have hneq : ∀ q ∈ ps.drop (i + 1), q.sessionID ≠ ps[i].sessionID := by
        intro q hq he
        have hqps : q ∈ ps := List.mem_of_mem_drop hq
        have heq : q = ps[i] := presence_key_inj hnd hqps himem he
        rw [heq] at hq
        exact hnotelse.2 hq
      have htake1 : ps.take (i + 1) = ps.take i ++ [ps[i]] := by
        rw [List.take_succ, List.getElem?_eq_getElem h]
        simp
      by_cases hs : ps[i].sessionID = sid ∧ ps[i].userID = uid
      · cases filters with
        | none =>
          have hred : routeLoopF sid uid (fuel + 1) ps none i sf
              = (swapRemove ps i, true) := by
            simp only [routeLoopF]
            rw [dif_pos h]
            rw [if_pos hs]
          rw [hred]
          constructor
          · exact iff_of_true rfl
              (Or.inr ⟨ps[i], by rw [hdropeq]; exact List.mem_cons_self _ _, hs⟩)
          · intro q
            rw [mem_swapRemove_iff h]
            simp only [filterCond, and_true, hdropeq, List.mem_cons]
            constructor
            · rintro (hq | hq)
              · exact Or.inl hq
              · refine Or.inr ⟨Or.inr hq, fun hqs => ?_⟩
                exact hneq q hq (hqs.1.trans hs.1.symm)
            · rintro (hq | ⟨hq | hq, hns⟩)
              · exact Or.inl hq
              · subst hq
                exact absurd hs hns
              · exact Or.inr hq
        | some fs =>
          have hred : routeLoopF sid uid (fuel + 1) ps (some fs) i sf
              = routeLoopF sid uid fuel (swapRemove ps i) (some fs) i true := by
            simp only [routeLoopF]
            rw [dif_pos h]
            rw [if_pos hs]
          rcases ih i (swapRemove ps i) (some fs) true hfuel1 hnd1 with ⟨iha, ihb⟩
          rw [hred]
          constructor
          · exact iff_of_true (iha.mpr (Or.inl rfl))
              (Or.inr ⟨ps[i], by rw [hdropeq]; exact List.mem_cons_self _ _, hs⟩)
          · intro q
            rw [ihb q, take_swapRemove h, (drop_swapRemove_perm h).mem_iff]
            rw [hdropeq]
            simp only [List.mem_cons]
            constructor
            · rintro (hq | ⟨hq, hns, hfc⟩)
              · exact Or.inl hq
              · exact Or.inr ⟨Or.inr hq, hns, hfc⟩
            · rintro (hq | ⟨hq | hq, hns, hfc⟩)
              · exact Or.inl hq
              · subst hq
                exact absurd hs hns
              · exact Or.inr ⟨hq, hns, hfc⟩
      · have hsender_iff : (∃ p ∈ ps.drop (i + 1), p.sessionID = sid ∧ p.userID = uid) ↔
            (∃ p ∈ ps.drop i, p.sessionID = sid ∧ p.userID = uid) := by
          constructor
          · rintro ⟨p, hp, hps⟩
            exact ⟨p, by rw [hdropeq]; exact List.mem_cons_of_mem _ hp, hps⟩
          · rintro ⟨p, hp, hps⟩
            rw [hdropeq] at hp
            rcases List.mem_cons.mp hp with rfl | hp
            · exact absurd hps hs
            · exact ⟨p, hp, hps⟩
        cases filters with
        | none =>
          have hred : routeLoopF sid uid (fuel + 1) ps none i sf
              = routeLoopF sid uid fuel ps none (i + 1) sf := by
            simp only [routeLoopF]
            rw [dif_pos h]
            rw [if_neg hs]
          rcases ih (i + 1) ps none sf hfuel2 hnd with ⟨iha, ihb⟩
          rw [hred]
          constructor
          · rw [iha, or_congr_right hsender_iff]
          · intro q
            rw [ihb q, htake1]
            simp only [filterCond, and_true, List.mem_append, List.mem_cons,
              List.not_mem_nil, or_false, hdropeq]
            constructor
            · rintro ((hq | hq) | ⟨hq, hns⟩)
              · exact Or.inl hq
              · subst hq
                exact Or.inr ⟨Or.inl rfl, hs⟩
              · exact Or.inr ⟨Or.inr hq, hns⟩
            · rintro (hq | ⟨hq | hq, hns⟩)
              · exact Or.inl (Or.inl hq)
              · subst hq
                exact Or.inl (Or.inr rfl)
              · exact Or.inr ⟨hq, hns⟩
        | some fs =>
          cases hf : findFilterIdx ps[i] fs with
          | some j =>
            rcases findFilterIdx_eq_some hf with ⟨hj, hm1, hm2⟩
            have hred : routeLoopF sid uid (fuel + 1) ps (some fs) i sf
                = routeLoopF sid uid fuel ps (some (swapRemove fs j)) (i + 1) sf := by
              simp only [routeLoopF]
              rw [dif_pos h]
              rw [if_neg hs]
              rw [hf]
            rcases ih (i + 1) ps (some (swapRemove fs j)) sf hfuel2 hnd with ⟨iha, ihb⟩
            rw [hred]
            constructor
            · rw [iha, or_congr_right hsender_iff]
            · intro q
              rw [ihb q, htake1]
              simp only [filterCond, List.mem_append, List.mem_cons,
                List.not_mem_nil, or_false]
              constructor
              · rintro ((hq | hq) | ⟨hq, hns, hfc⟩)
                · exact Or.inl hq
                · subst hq
                  refine Or.inr ⟨by rw [hdropeq]; exact List.mem_cons_self _ _, hs, ?_⟩
                  exact ⟨fs.get ⟨j, hj⟩, List.get_mem fs j hj, hm1, hm2⟩
                · refine Or.inr ⟨by rw [hdropeq]; exact List.mem_cons_of_mem _ hq, hns, ?_⟩
                  exact (filter_consume_iff hj hm1 (hneq q hq)).mp hfc
              · rintro (hq | ⟨hq, hns, hfc⟩)
                · exact Or.inl (Or.inl hq)
                · rw [hdropeq] at hq
                  rcases List.mem_cons.mp hq with rfl | hq
                  · exact Or.inl (Or.inr rfl)
                  · exact Or.inr ⟨hq, hns, (filter_consume_iff hj hm1 (hneq q hq)).mpr hfc⟩
          | none =>
            have hnomatch := findFilterIdx_eq_none_iff.mp hf
            have hred : routeLoopF sid uid (fuel + 1) ps (some fs) i sf
                = routeLoopF sid uid fuel (swapRemove ps i) (some fs) i sf := by
              simp only [routeLoopF]
              rw [dif_pos h]
              rw [if_neg hs]
              rw [hf]
            rcases ih i (swapRemove ps i) (some fs) sf hfuel1 hnd1 with ⟨iha, ihb⟩
            rw [hred]
            constructor
            · rw [iha]
              simp only [(drop_swapRemove_perm h).mem_iff]
              rw [or_congr_right hsender_iff]
            · intro q
              rw [ihb q, take_swapRemove h, (drop_swapRemove_perm h).mem_iff]
              rw [hdropeq]
              simp only [filterCond, List.mem_cons]
              constructor
              · rintro (hq | ⟨hq, hns, hfc⟩)
                · exact Or.inl hq
                · exact Or.inr ⟨Or.inr hq, hns, hfc⟩
              · rintro (hq | ⟨hq | hq, hns, hfc⟩)
                · exact Or.inl hq
                · subst hq
                  rcases hfc with ⟨f, hfmem, hfm⟩
                  exact absurd hfm (hnomatch f hfmem)
                · exact Or.inr ⟨hq, hns, hfc⟩
    · have hge : ps.length ≤ i := Nat.le_of_not_lt h
      have hred : routeLoopF sid uid (fuel + 1) ps filters i sf = (ps, sf) := by
        simp only [routeLoopF]
        rw [dif_neg h]
      rw [hred]
      constructor
      · simp [List.drop_eq_nil_of_le hge]
      · intro q
        simp [List.drop_eq_nil_of_le hge, List.take_of_length_le hge]

/-- Membership in the spec-side recipient list, phrased through `filterCond`
at the filter option the code actually builds (`nil` iff no filter entries
arrived). -/
theorem mem_specRecipients (sid uid : UUID) (ps : List Presence)
    (F : List matchDataFilter) (q : Presence) :
    q ∈ specRecipients sid uid ps F ↔
      (q ∈ ps ∧ ¬(q.sessionID = sid ∧ q.userID = uid) ∧
        filterCond (if F.isEmpty then none else some F) q) := by
  unfold specRecipients
  rw [List.mem_filter]
  simp only [decide_eq_true_eq]
  cases F with
  | nil => simp [filterCond]
  | cons f fs =>
    simp only [List.isEmpty_cons, if_neg]
    constructor
    · rintro ⟨hq, hns, hfc⟩
      exact ⟨hq, hns, by simpa [filterCond] using hfc (List.cons_ne_nil f fs)⟩
    · rintro ⟨hq, hns, hfc⟩
      exact ⟨hq, hns, fun _ => by simpa [filterCond] using hfc⟩

/-- C1: the relayed data-send recipient computation.  Under the membership
discipline the spec guarantees (stream membership keyed by session, so the
session keys are distinct), the routed message is dropped exactly when the
sender is not a member of the original membership (regardless of filters) or
no candidate survives, and a delivered message reaches exactly the
spec-described recipient set — the membership minus the sender's entry,
restricted to filter-named candidates when the filter list is non-empty; in
particular the sender is never a recipient. -/
theorem c1_relayed_recipients (sid uid : UUID) (ps : List Presence)
    (F : List matchDataFilter) (hnd : (ps.map Presence.sessionID).Nodup) :
    (relayedRoute sid uid ps F = none ↔
        ((¬ ∃ p ∈ ps, p.sessionID = sid ∧ p.userID = uid)
          ∨ specRecipients sid uid ps F = []))
  ∧ ∀ out, relayedRoute sid uid ps F = some out →
      ((∀ q, q ∈ out ↔ q ∈ specRecipients sid uid ps F)
        ∧ ∀ q ∈ out, ¬(q.sessionID = sid ∧ q.userID = uid)) := by
  rcases routeLoopF_spec sid uid ps.length 0 ps (if F.isEmpty then none else some F) false
    (by omega) hnd with ⟨ha, hb⟩
  rw [List.drop_zero] at ha hb
  rw [List.take_zero] at hb
  have hmem : ∀ q, q ∈ (routeLoopF sid uid ps.length ps
      (if F.isEmpty then none else some F) 0 false).1 ↔ q ∈ specRecipients sid uid ps F := by
    intro q
    rw [hb q, mem_specRecipients]
    simp
  have hr : relayedRoute sid uid ps F
      = if ps.length = 0 then none
        else
          if (routeLoopF sid uid ps.length ps (if F.isEmpty then none else some F) 0 false).2
              = false then none
          else if (routeLoopF sid uid ps.length ps
              (if F.isEmpty then none else some F) 0 false).1.length = 0 then none
          else some (routeLoopF sid uid ps.length ps
              (if F.isEmpty then none else some F) 0 false).1 := rfl
  by_cases hps : ps.length = 0
  · have hnil : ps = [] := List.length_eq_zero.mp hps
    subst hnil
    rw [hr]
    constructor
    · exact iff_of_true (if_pos hps) (Or.inl (by simp))
    · intro out hout
      rw [if_pos hps] at hout
      cases hout
  · rw [hr, if_neg hps]
    cases hr2 : (routeLoopF sid uid ps.length ps
        (if F.isEmpty then none else some F) 0 false).2 with
    | false =>
      have hnosender : ¬ ∃ p ∈ ps, p.sessionID = sid ∧ p.userID = uid := by
        intro hsend
        have := ha.mpr (Or.inr hsend)
        rw [hr2] at this
        cases this
      constructor
      · exact iff_of_true (if_pos rfl) (Or.inl hnosender)
      · intro out hout
        rw [if_pos rfl] at hout
        cases hout
    | true =>
      have hsend : ∃ p ∈ ps, p.sessionID = sid ∧ p.userID = uid := by
        rcases ha.mp hr2 with hfalse | hsend
        · cases hfalse
        · exact hsend
      rw [if_neg (by simp [hr2])]
      by_cases hlen : (routeLoopF sid uid ps.length ps
          (if F.isEmpty then none else some F) 0 false).1.length = 0
      · have hempty : specRecipients sid uid ps F = [] := by
          rw [List.eq_nil_iff_forall_not_mem]
          intro q hq
          have hq2 := (hmem q).mpr hq
          rw [List.length_eq_zero.mp hlen] at hq2
          cases hq2
        constructor
        · exact iff_of_true (if_pos hlen) (Or.inr hempty)
        · intro out hout
          rw [if_pos hlen] at hout
          cases hout
      · have hne : specRecipients sid uid ps F ≠ [] := by
          intro he
          apply hlen
          rw [List.length_eq_zero, List.eq_nil_iff_forall_not_mem]
          intro q hq
          have hq2 := (hmem q).mp hq
          rw [he] at hq2
          cases hq2
        constructor
        · rw [if_neg hlen]
          refine iff_of_false (by simp) ?_
          rintro (hno | hemp)
          · exact hno hsend
          · exact hne hemp
        · intro out hout
          rw [if_neg hlen] at hout
          injection hout with hout
          subst hout
          refine ⟨hmem, ?_⟩
          intro q hq
          have hq2 := (hmem q).mp hq
          rw [mem_specRecipients] at hq2
          exact hq2.2.1

/-- Witness for C1: with membership (sessions 10 and 20) and a non-member
sender (session 40, user 4), the message is dropped even though the filter
names the valid member (user 2, session 20). -/
theorem c1_relayed_recipients_witness :
    relayedRoute 40 4 [⟨10, 1, ⟨"a", 0⟩⟩, ⟨20, 2, ⟨"b", 0⟩⟩] [⟨2, 20⟩] = none :=
  (c1_relayed_recipients 40 4 [⟨10, 1, ⟨"a", 0⟩⟩, ⟨20, 2, ⟨"b", 0⟩⟩] [⟨2, 20⟩]
    (by decide)).1.mpr (Or.inl (by decide))
